import Mathlib

/-!
Verification of the SemanticKernel ramp-up notebooks.

Python strings are modelled as lists of characters; the notebook functions
are translated as executable Lean functions.  Calls to the imported SDK
(chat completion, embedding generation, vector search) are modelled as
oracle parameters, since the SDK is external to the repository.
-/

set_option maxHeartbeats 1000000

/-- Python slice text[a:b] for non-negative bounds: drop a, then take b - a. -/
def pySlice (l : List Char) (a b : Nat) : List Char :=
  (l.drop a).take (b - a)

/-- Python str.lower, modelled per character with Char.toLower.  The two agree
on the ASCII data handled by the notebooks. -/
def pyLower (s : List Char) : List Char :=
  s.map Char.toLower

/-- Python substring membership "needle in hay". -/
def containsSub (needle : List Char) : List Char → Bool
  | [] => needle.isEmpty
  | c :: rest => needle.isPrefixOf (c :: rest) || containsSub needle rest

/-- Python str.rfind for a single character: index of the last occurrence,
or none (Python returns -1, which every guard in the source treats as
failure since it is never greater than a non-negative threshold). -/
def rfind (c : Char) : List Char → Option Nat
  | [] => none
  | x :: xs =>
    match rfind c xs with
    | some j => some (j + 1)
    | none => if x = c then some 0 else none

/-- Sentence-boundary trimming step of chunk_text: if the last period of the
chunk sits past chunk_size / 2, cut the chunk just after it. -/
def trimChunk (chunk : List Char) (chunk_size : Nat) : List Char :=
  match rfind '.' chunk with
  | some last_period =>
    if chunk_size / 2 < last_period then chunk.take (last_period + 1) else chunk
  | none => chunk

/-- The while loop of chunk_text, with explicit fuel standing for the number
of remaining iterations; none models a loop that fails to finish within the
given fuel. -/
def chunkLoop (text : List Char) (chunk_size overlap : Nat) :
    Nat → Nat → Option (List (List Char))
  | 0, _ => none
  | fuel + 1, start =>
    let chunk0 := pySlice text start (start + chunk_size)
    let chunk := if start + chunk_size < text.length then trimChunk chunk0 chunk_size else chunk0
    let end1 := if start + chunk_size < text.length then start + chunk.length else start + chunk_size
    if text.length ≤ end1 then
      some [chunk]
    else
      (chunkLoop text chunk_size overlap fuel (end1 - overlap)).map (fun rest => chunk :: rest)

/-- chunk_text from the QuickStart notebook: split text into overlapping
chunks.  A fuel of text.length + 1 bounds the loop, whose start index must
move forward on every iteration for the Python code to terminate. -/
def chunk_text (text : List Char) (chunk_size : Nat := 1000) (overlap : Nat := 100) :
    Option (List (List Char)) :=
  if text.length ≤ chunk_size then
    some [text]
  else
    chunkLoop text chunk_size overlap (text.length + 1) 0

/-- Message roles of the SDK's AuthorRole enumeration. -/
inductive AuthorRole
  | system
  | user
  | assistant
  | tool
  deriving DecidableEq, Repr

/-- ChatMessageContent as the notebooks use it: a role, the text of the
single TextContent item, and the metadata dictionary (whose values here are
always booleans). -/
structure ChatMessageContent where
  role : AuthorRole
  text : List Char
  metadata : List (List Char × Bool)
  deriving DecidableEq, Repr

/-- The fixed assistant message the content-blocking filter installs, whose
metadata dictionary maps "filtered" to true. -/
def blockedMessage : ChatMessageContent :=
  { role := .assistant
    text := "I cannot process requests containing prohibited words. Please try again.".data
    metadata := [("filtered".data, true)] }

/-- FunctionResult as built by the filter: the invoked function's metadata
(identified here by the function name) and the result value. -/
structure FunctionResult where
  function : List Char
  value : ChatMessageContent
  deriving DecidableEq, Repr

/-- The slice of FunctionInvocationContext the filter touches: the invoked
function's name, the string argument named input (the filter reads
context.arguments.get with default empty string; the claims only concern
invocations carrying this argument), the optional chat_history argument
(none when absent), and the optional result. -/
structure FunctionInvocationContext where
  functionName : List Char
  input : List Char
  chat_history : Option (List ChatMessageContent)
  result : Option FunctionResult
  deriving DecidableEq, Repr

/-- Python truthiness of the chat_history argument: None is falsy, and the
SDK's ChatHistory class defines its length as the number of messages it
holds, so a present but empty history is falsy as well. -/
def chatHistoryTruthy : Option (List ChatMessageContent) → Bool
  | none => false
  | some msgs => !msgs.isEmpty

/-- Result of running a function-invocation filter: either it blocked the
invocation (returning without awaiting next, with the final context), or it
proceeded by awaiting next on the given context. -/
inductive FilterOutcome
  | blocked (context : FunctionInvocationContext)
  | proceed (context : FunctionInvocationContext)
  deriving DecidableEq, Repr

def FORBIDDEN_WORD : List Char := "badword".data

/-- content_blocking_filter from the filters notebook: if the forbidden
word occurs in the lowercased input argument, install the blocked message
as the invocation result, append it to a truthy chat_history argument, and
return without awaiting next; otherwise await next on the context. -/
def content_blocking_filter (context : FunctionInvocationContext) : FilterOutcome :=
  let user_input := context.input
  let chat_history_from_args := context.chat_history
  if containsSub FORBIDDEN_WORD (pyLower user_input) then
    .blocked
      { context with
        result := some { function := context.functionName, value := blockedMessage }
        chat_history :=
          if chatHistoryTruthy chat_history_from_args then
            chat_history_from_args.map (fun msgs => msgs ++ [blockedMessage])
          else
            chat_history_from_args }
  else
    .proceed context

/-- ChatHistory.add_user_message: append a user-role message holding the
given text. -/
def add_user_message (chat_history : List ChatMessageContent) (input : List Char) :
    List ChatMessageContent :=
  chat_history ++ [{ role := .user, text := input, metadata := [] }]

/-- The fallback assistant message ChatPlugin.chat returns when the chat
service yields no response. -/
def fallbackMessage : ChatMessageContent :=
  { role := .assistant
    text := "I'm sorry, I couldn't generate a response.".data
    metadata := [] }

/-- ChatPlugin.chat from the filters notebook.  The external chat
completion service is an oracle from the sent history to an optional list
of response messages (none standing for a null response object).  The
function appends the input as a user message, queries the service, and
returns the final history together with the returned message. -/
def ChatPlugin.chat
    (chat_service : List ChatMessageContent → Option (List ChatMessageContent))
    (chat_history : List ChatMessageContent) (input : List Char) :
    List ChatMessageContent × ChatMessageContent :=
  let history := add_user_message chat_history input
  let response := chat_service history
  match response with
  | some (first :: _) => (history, first)
  | some [] => (history, fallbackMessage)
  | none => (history, fallbackMessage)

/-- A light of the LightsPlugin demo: a dictionary with id, name and is_on
fields. -/
structure Light where
  id : Int
  name : List Char
  is_on : Bool
  deriving DecidableEq, Repr

/-- The class-level lights list of LightsPlugin, the initial state of the
home-automation demo. -/
def LightsPlugin.lights : List Light :=
  [{ id := 1, name := "Table Lamp".data, is_on := false },
   { id := 2, name := "Porch light".data, is_on := false },
   { id := 3, name := "Chandelier".data, is_on := true }]

/-- LightsPlugin.get_state (exposed as get_lights): returns the current
lights list. -/
def LightsPlugin.get_state (lights : List Light) : List Light :=
  lights

/-- LightsPlugin.change_state: walk the lights list; on the first entry
whose id matches, set its is_on field and return it; otherwise return
None.  The in-place mutation of the Python dict is modelled by returning
the updated list alongside the returned entry. -/
def LightsPlugin.change_state : List Light → Int → Bool → List Light × Option Light
  | [], _, _ => ([], none)
  | light :: rest, i, b =>
    if light.id = i then
      ({ light with is_on := b } :: rest, some { light with is_on := b })
    else
      (light :: (LightsPlugin.change_state rest i b).1, (LightsPlugin.change_state rest i b).2)

/-- DocumentChunk, the vector-store record dataclass the QuickStart
notebook defines: an optional 1536-dimensional embedding vector, a string
key (defaulted in Python to a fresh UUID, which is therefore a required
argument here), and content, document_name, page_number and chunk_index
data fields with the notebook's defaults. -/
structure DocumentChunk where
  vector : Option (List Float) := none
  id : List Char
  content : List Char := "content".data
  document_name : List Char := "document".data
  page_number : Int := 0
  chunk_index : Int := 0

/-- The DocumentChunk constructor call of process_pdfs_from_folder, which
fills content, document_name, page_number and chunk_index and leaves the
other fields at their defaults (the generated UUID key is passed in). -/
def mkDocumentChunk (chunk stem : List Char) (page_num chunk_idx : Int)
    (generated_id : List Char) : DocumentChunk :=
  { id := generated_id
    content := chunk
    document_name := stem
    page_number := page_num
    chunk_index := chunk_idx }

/-- VectorSearchOptions as search_documents builds them. -/
structure VectorSearchOptions where
  vector_field_name : List Char
  include_vectors : Bool
  filter : Option (List Char × List Char)
  top : Nat

/-- One item of the SDK's vector search results: a stored record and its
relevance score. -/
structure VectorSearchResult where
  record : DocumentChunk
  score : Float

/-- The options search_documents passes to vectorized_search: an equal_to
filter on document_name when a document filter is given, and top set to
top_k. -/
def buildSearchOptions (document_filter : Option (List Char)) (top_k : Nat) :
    VectorSearchOptions :=
  match document_filter with
  | some f =>
    { vector_field_name := "vector".data
      include_vectors := false
      filter := some ("document_name".data, f)
      top := top_k }
  | none =>
    { vector_field_name := "vector".data
      include_vectors := false
      filter := none
      top := top_k }

/-- search_documents from the QuickStart notebook.  The query embedding
call and the collection's vectorized_search are external SDK calls,
modelled as oracles that either return a value or raise.  The function
returns the empty list on any exception or when the search yields no
results, and otherwise the SDK's record and score pairs in the SDK's
order. -/
def search_documents
    (generate_raw_embeddings : Except Unit (List Float))
    (vectorized_search : List Float → VectorSearchOptions → Except Unit (List VectorSearchResult))
    (document_filter : Option (List Char)) (top_k : Nat) :
    List (DocumentChunk × Float) :=
  let options := buildSearchOptions document_filter top_k
  match generate_raw_embeddings with
  | .error _ => []
  | .ok query_embedding =>
    match vectorized_search query_embedding options with
    | .error _ => []
    | .ok results_to_process =>
      if results_to_process.isEmpty then []
      else results_to_process.map (fun result => (result.record, result.score))

/-- First scenario input of the filters notebook, which the filter
blocks. -/
def ctxBadword : FunctionInvocationContext :=
  { functionName := "Chat".data
    input := "Tell me a story with a badword in it.".data
    chat_history := some []
    result := none }

/-- Fourth scenario input of the filters notebook, which the filter lets
through. -/
def ctxCapital : FunctionInvocationContext :=
  { functionName := "Chat".data
    input := "What is the capital of France?".data
    chat_history := some []
    result := none }

/-- A blocked invocation whose chat_history argument already holds a
message, so the history is truthy. -/
def ctxBadwordNonEmptyHistory : FunctionInvocationContext :=
  { functionName := "Chat".data
    input := "I like to talk about good things, not badword.".data
    chat_history := some [{ role := .user, text := "hello".data, metadata := [] }]
    result := none }

/-- A sample assistant reply used to exercise the chat plugin. -/
def msgParis : ChatMessageContent :=
  { role := .assistant, text := "The capital of France is Paris.".data, metadata := [] }

/-- Chunk-list shape asserted by the specification: every chunk is a
non-empty substring of the text of length at most chunk_size, each chunk
after the first starts exactly overlap characters before the end position
of its predecessor, and the final chunk reaches the final character. -/
inductive ChunksFrom (text : List Char) (chunk_size overlap : Nat) :
    Nat → List (List Char) → Prop
  | last (s : Nat) (c : List Char) :
      c ≠ [] → c.length ≤ chunk_size → c = pySlice text s (s + c.length) →
      s + c.length = text.length →
      ChunksFrom text chunk_size overlap s [c]
  | cons (s : Nat) (c : List Char) (rest : List (List Char)) :
      c ≠ [] → c.length ≤ chunk_size → c = pySlice text s (s + c.length) →
      ChunksFrom text chunk_size overlap (s + c.length - overlap) rest →
      ChunksFrom text chunk_size overlap s (c :: rest)

theorem ChunksFrom.ne_nil {text : List Char} {cs ov s : Nat} {cks : List (List Char)}
    (h : ChunksFrom text cs ov s cks) : cks ≠ [] := by
  cases h <;> simp

theorem pySlice_length (l : List Char) (a b : Nat) :
    (pySlice l a b).length = min (b - a) (l.length - a) := by
  simp [pySlice]

theorem pySlice_take (l : List Char) (a b n : Nat) (h : n ≤ b - a) :
    (pySlice l a b).take n = pySlice l a (a + n) := by
  simp [pySlice, List.take_take]
  omega

theorem pySlice_self_length (l : List Char) (a b : Nat) :
    pySlice l a b = pySlice l a (a + (pySlice l a b).length) := by
  simp only [pySlice, List.length_take, List.length_drop, Nat.add_sub_cancel_left]
  rw [List.take_eq_take]
  simp only [List.length_drop]
  omega

theorem rfind_lt_length {c : Char} {l : List Char} {i : Nat}
    (h : rfind c l = some i) : i < l.length := by
  induction l generalizing i with
  | nil => simp [rfind] at h
  | cons x xs ih =>
    simp only [rfind] at h
    simp only [List.length_cons]
    cases hx : rfind c xs with
    | some j =>
      rw [hx] at h
      have hj := ih hx
      simp only [Option.some.injEq] at h
      omega
    | none =>
      rw [hx] at h
      by_cases he : x = c
      · rw [if_pos he] at h
        simp only [Option.some.injEq] at h
        omega
      · rw [if_neg he] at h
        exact absurd h (by simp)

theorem trimChunk_spec (c : List Char) (cs : Nat) (hc : c.length = cs) (h1 : 1 ≤ cs) :
    ∃ n, trimChunk c cs = c.take n ∧ cs / 2 < n ∧ n ≤ cs := by
  unfold trimChunk
  cases hr : rfind '.' c with
  | none =>
    refine ⟨cs, ?_, Nat.div_lt_self (by omega) one_lt_two, le_refl cs⟩
    rw [← hc, List.take_length]
  | some i =>
    by_cases hi : cs / 2 < i
    · have hlt : i < c.length := rfind_lt_length hr
      exact ⟨i + 1, by simp [hi], by omega, by omega⟩
    · refine ⟨cs, ?_, Nat.div_lt_self (by omega) one_lt_two, le_refl cs⟩
      show (if cs / 2 < i then c.take (i + 1) else c) = c.take cs
      rw [if_neg hi, ← hc, List.take_length]

theorem chunkLoop_sound (text : List Char) (cs ov : Nat) (h1 : 1 ≤ cs) (h2 : ov ≤ cs / 2) :
    ∀ fuel start, start < text.length → text.length - start ≤ fuel →
      ∃ cks, chunkLoop text cs ov fuel start = some cks ∧
        ChunksFrom text cs ov start cks ∧
        (start + cs < text.length → 2 ≤ cks.length) := by
  intro fuel
  induction fuel with
  | zero => intro s hs hf; omega
  | succ f ih =>
    intro s hs hf
    by_cases hcase : s + cs < text.length
    · -- the loop continues: the trimmed chunk ends strictly before the text does
      have hlen0 : (pySlice text s (s + cs)).length = cs := by
        rw [pySlice_length]; omega
      obtain ⟨n, htrim, hn1, hn2⟩ := trimChunk_spec (pySlice text s (s + cs)) cs hlen0 h1
      have hchunklen : (trimChunk (pySlice text s (s + cs)) cs).length = n := by
        rw [htrim, List.length_take, hlen0]; omega
      have hov : ov < n := by omega
      have hs' : s + n - ov < text.length := by omega
      have hf' : text.length - (s + n - ov) ≤ f := by omega
      obtain ⟨rest, hrest, hrchunks, _⟩ := ih (s + n - ov) hs' hf'
      refine ⟨trimChunk (pySlice text s (s + cs)) cs :: rest, ?_, ?_, ?_⟩
      · simp only [chunkLoop, if_pos hcase, hchunklen]
        rw [if_neg (by omega)]
        rw [hrest]
        rfl
      · refine ChunksFrom.cons s _ rest ?_ ?_ ?_ ?_
        · intro hnil
          rw [hnil] at hchunklen
          simp at hchunklen
          omega
        · omega
        · rw [hchunklen, htrim, pySlice_take]
          omega
        · rw [hchunklen]
          exact hrchunks
      · intro _
        have := hrchunks.ne_nil
        cases rest with
        | nil => exact absurd rfl this
        | cons a b => simp
    · -- the final iteration: the raw chunk reaches the end of the text
      have hL : text.length ≤ s + cs := by omega
      have hlen0 : (pySlice text s (s + cs)).length = text.length - s := by
        rw [pySlice_length]; omega
      refine ⟨[pySlice text s (s + cs)], ?_, ?_, by omega⟩
      · simp only [chunkLoop, if_neg hcase]
        rw [if_pos (by omega)]
      · refine ChunksFrom.last s _ ?_ (by omega) ?_ (by omega)
        · intro hnil
          rw [hnil] at hlen0
          simp at hlen0
          omega
        · exact pySlice_self_length text s (s + cs)

theorem containsSub_iff_infix (needle hay : List Char) :
    containsSub needle hay = true ↔ needle <:+: hay := by
  induction hay with
  | nil => simp [containsSub, List.isEmpty_iff, List.infix_nil]
  | cons c rest ih =>
    simp [containsSub, List.isPrefixOf_iff_prefix, ih, List.infix_cons_iff]

/-- C1: for every function invocation carrying a string argument named
input, the content-blocking filter blocks the invocation if and only if
the lowercased input contains the substring badword, and when it does not
block it awaits the next step of the pipeline with the context
unchanged. -/
theorem filter_blocks_iff_badword (ctx : FunctionInvocationContext) :
    ((∃ c, content_blocking_filter ctx = .blocked c) ↔
      FORBIDDEN_WORD <:+: pyLower ctx.input) ∧
    (¬ FORBIDDEN_WORD <:+: pyLower ctx.input →
      content_blocking_filter ctx = .proceed ctx) := by
  have hiff := containsSub_iff_infix FORBIDDEN_WORD (pyLower ctx.input)
  by_cases hb : containsSub FORBIDDEN_WORD (pyLower ctx.input) = true
  · have hblocked : content_blocking_filter ctx = .blocked
        { ctx with
          result := some { function := ctx.functionName, value := blockedMessage }
          chat_history :=
            if chatHistoryTruthy ctx.chat_history then
              ctx.chat_history.map (fun msgs => msgs ++ [blockedMessage])
            else ctx.chat_history } := by
      simp [content_blocking_filter, hb]
    exact ⟨⟨fun _ => hiff.mp hb, fun _ => ⟨_, hblocked⟩⟩, fun hni => absurd (hiff.mp hb) hni⟩
  · have hproceed : content_blocking_filter ctx = .proceed ctx := by
      simp [content_blocking_filter, hb]
    refine ⟨⟨fun hc => ?_, fun hinf => absurd (hiff.mpr hinf) hb⟩, fun _ => hproceed⟩
    obtain ⟨c, hc⟩ := hc
    rw [hproceed] at hc
    exact absurd hc (by simp)

/-- C1 witness: the filter blocks the first scenario input of the filters
notebook and lets the fourth one through unchanged. -/
theorem filter_blocks_iff_badword_witness :
    (∃ c, content_blocking_filter ctxBadword = .blocked c) ∧
    content_blocking_filter ctxCapital = .proceed ctxCapital :=
  ⟨(filter_blocks_iff_badword ctxBadword).1.mpr (by decide),
   (filter_blocks_iff_badword ctxCapital).2 (by decide)⟩

/-- C2 counterexample: on the first scenario input the filter blocks and a
chat_history argument is present (an empty history, exactly what
test_scenarios passes, since the wrapped function that would add the user
message never runs), yet the blocked message is not appended to it: the
history stays empty because an empty ChatHistory is falsy. -/
theorem filter_blocked_empty_history_not_appended :
    content_blocking_filter ctxBadword =
      .blocked { ctxBadword with
        result := some { function := "Chat".data, value := blockedMessage } } ∧
    ({ ctxBadword with
        result := some { function := "Chat".data, value := blockedMessage } } :
        FunctionInvocationContext).chat_history = some [] ∧
    (some ([] : List ChatMessageContent)) ≠ some ([] ++ [blockedMessage]) := by
  refine ⟨by decide, rfl, by simp⟩

/-- C2 (amended): whenever the content-blocking filter detects the
forbidden word, it returns without awaiting next, the invocation's result
is exactly the fixed assistant refusal message carrying metadata mapping
filtered to true, and the blocked message is appended to the chat_history
argument exactly when that argument is present and non-empty (Python
truthiness of the SDK's ChatHistory counts its messages). -/
theorem filter_blocked_result_and_history (ctx : FunctionInvocationContext)
    (h : containsSub FORBIDDEN_WORD (pyLower ctx.input) = true) :
    ∃ c, content_blocking_filter ctx = .blocked c ∧
      c.result = some { function := ctx.functionName, value := blockedMessage } ∧
      blockedMessage.role = AuthorRole.assistant ∧
      blockedMessage.text =
        "I cannot process requests containing prohibited words. Please try again.".data ∧
      blockedMessage.metadata = [("filtered".data, true)] ∧
      (∀ msgs, ctx.chat_history = some msgs → msgs ≠ [] →
        c.chat_history = some (msgs ++ [blockedMessage])) ∧
      (∀ msgs, ctx.chat_history = some msgs → msgs = [] → c.chat_history = some msgs) ∧
      (ctx.chat_history = none → c.chat_history = none) := by
  refine ⟨{ ctx with
      result := some { function := ctx.functionName, value := blockedMessage }
      chat_history :=
        if chatHistoryTruthy ctx.chat_history then
          ctx.chat_history.map (fun msgs => msgs ++ [blockedMessage])
        else ctx.chat_history }, ?_, rfl, rfl, rfl, rfl, ?_, ?_, ?_⟩
  · simp [content_blocking_filter, h]
  · intro msgs hm hne
    simp [hm, chatHistoryTruthy, List.isEmpty_iff, hne]
  · intro msgs hm hne
    subst hne
    simp [hm, chatHistoryTruthy]
  · intro hn
    simp [hn, chatHistoryTruthy]

/-- C2 witness: on the third scenario input with a one-message history the
filter blocks, sets the refusal result, and appends the refusal to the
history. -/
theorem filter_blocked_result_and_history_witness :
    ∃ c, content_blocking_filter ctxBadwordNonEmptyHistory = .blocked c ∧
      c.result = some
        { function := ctxBadwordNonEmptyHistory.functionName, value := blockedMessage } ∧
      blockedMessage.role = AuthorRole.assistant ∧
      blockedMessage.text =
        "I cannot process requests containing prohibited words. Please try again.".data ∧
      blockedMessage.metadata = [("filtered".data, true)] ∧
      (∀ msgs, ctxBadwordNonEmptyHistory.chat_history = some msgs → msgs ≠ [] →
        c.chat_history = some (msgs ++ [blockedMessage])) ∧
      (∀ msgs, ctxBadwordNonEmptyHistory.chat_history = some msgs → msgs = [] →
        c.chat_history = some msgs) ∧
      (ctxBadwordNonEmptyHistory.chat_history = none → c.chat_history = none) :=
  filter_blocked_result_and_history ctxBadwordNonEmptyHistory (by decide)

/-- C9: ChatPlugin.Chat first appends the input as a user message to the
given chat history, then returns the first message of the chat service's
response when that response is a non-empty list, and otherwise returns the
fixed assistant apology message. -/
theorem chatplugin_chat_spec
    (chat_service : List ChatMessageContent → Option (List ChatMessageContent))
    (chat_history : List ChatMessageContent) (input : List Char) :
    (ChatPlugin.chat chat_service chat_history input).1 =
      add_user_message chat_history input ∧
    add_user_message chat_history input =
      chat_history ++ [{ role := .user, text := input, metadata := [] }] ∧
    (∀ first rest, chat_service (add_user_message chat_history input) = some (first :: rest) →
      (ChatPlugin.chat chat_service chat_history input).2 = first) ∧
    (chat_service (add_user_message chat_history input) = some [] →
      (ChatPlugin.chat chat_service chat_history input).2 = fallbackMessage) ∧
    (chat_service (add_user_message chat_history input) = none →
      (ChatPlugin.chat chat_service chat_history input).2 = fallbackMessage) ∧
    fallbackMessage.role = AuthorRole.assistant ∧
    fallbackMessage.text = "I'm sorry, I couldn't generate a response.".data := by
  refine ⟨?_, rfl, ?_, ?_, ?_, rfl, rfl⟩
  · cases hr : chat_service (add_user_message chat_history input) with
    | none => simp [ChatPlugin.chat, hr]
    | some l =>
      cases l with
      | nil => simp [ChatPlugin.chat, hr]
      | cons first rest => simp [ChatPlugin.chat, hr]
  · intro first rest hr
    simp [ChatPlugin.chat, hr]
  · intro hr
    simp [ChatPlugin.chat, hr]
  · intro hr
    simp [ChatPlugin.chat, hr]

/-- C9 witness: with a service that answers, Chat returns the service's
first message; with a service that returns nothing, it returns the
apology. -/
theorem chatplugin_chat_spec_witness :
    (ChatPlugin.chat (fun _ => some [msgParis]) []
      "What is the capital of France?".data).2 = msgParis ∧
    (ChatPlugin.chat (fun _ => none) [] "hello".data).2 = fallbackMessage :=
  ⟨(chatplugin_chat_spec (fun _ => some [msgParis]) [] _).2.2.1 msgParis [] rfl,
   (chatplugin_chat_spec (fun _ => none) [] _).2.2.2.2.1 rfl⟩

/-- C4: with the default parameters, chunk_text returns the whole text as a
single chunk when it fits in one chunk, and otherwise a list of non-empty
substring chunks of length at most 1000, starting at index 0, each
subsequent chunk starting exactly 100 characters before the end of its
predecessor, with the last chunk reaching the final character. -/
theorem chunk_text_default_spec (text : List Char) :
    (text.length ≤ 1000 → chunk_text text 1000 100 = some [text]) ∧
    (1000 < text.length →
      ∃ cks, chunk_text text 1000 100 = some cks ∧ ChunksFrom text 1000 100 0 cks) := by
  constructor
  · intro h
    simp [chunk_text, h]
  · intro h
    obtain ⟨cks, heq, hch, -⟩ :=
      chunkLoop_sound text 1000 100 (by omega) (by omega) (text.length + 1) 0 (by omega)
        (by omega)
    refine ⟨cks, ?_, hch⟩
    simp only [chunk_text, if_neg (by omega : ¬ text.length ≤ 1000)]
    exact heq

/-- C4 witness: a five-character text is returned whole, and a text of 1001
characters is split into chunks of the asserted shape. -/
theorem chunk_text_default_spec_witness :
    chunk_text "hello".data 1000 100 = some ["hello".data] ∧
    ∃ cks, chunk_text (List.replicate 1001 'a') 1000 100 = some cks ∧
      ChunksFrom (List.replicate 1001 'a') 1000 100 0 cks :=
  ⟨(chunk_text_default_spec "hello".data).1 (by decide),
   (chunk_text_default_spec (List.replicate 1001 'a')).2
     (by rw [List.length_replicate]; omega)⟩

/-- C10: chunk_text terminates for every text whenever chunk_size is at
least 1 and overlap is at most chunk_size / 2: each loop iteration strictly
increases the start index, since even a chunk shortened at a sentence
boundary is longer than chunk_size / 2 and hence than overlap. -/
theorem chunk_text_terminates (text : List Char) (chunk_size overlap : Nat)
    (h1 : 1 ≤ chunk_size) (h2 : overlap ≤ chunk_size / 2) :
    ∃ cks, chunk_text text chunk_size overlap = some cks := by
  by_cases h : text.length ≤ chunk_size
  · exact ⟨[text], by simp [chunk_text, h]⟩
  · obtain ⟨cks, heq, -, -⟩ :=
      chunkLoop_sound text chunk_size overlap h1 h2 (text.length + 1) 0 (by omega) (by omega)
    refine ⟨cks, ?_⟩
    simp only [chunk_text, if_neg h]
    exact heq

/-- C10 witness: the loop terminates on a sample text with chunk_size 4 and
overlap 2. -/
theorem chunk_text_terminates_witness :
    1 ≤ 4 ∧ 2 ≤ 4 / 2 ∧
    ∃ cks, chunk_text "hello world, this is a test.".data 4 2 = some cks :=
  ⟨by decide, by decide,
   chunk_text_terminates "hello world, this is a test.".data 4 2 (by decide) (by decide)⟩

/-- C3 counterexample: chunk_text, a function defined in the QuickStart
notebook, transforms its input by repository code alone — it invokes no
framework capability and prints nothing, and its output is an overlapping
chunk decomposition rather than the input or a framework result — so not
every notebook function merely passes configuration to the framework. -/
theorem chunk_text_is_an_algorithm :
    chunk_text "ab. cd. ef. g".data 5 1 =
      some ["ab. c".data, "cd. e".data, "ef. g".data] ∧
    some ["ab. c".data, "cd. e".data, "ef. g".data] ≠ some ["ab. cd. ef. g".data] :=
  ⟨by decide, by decide⟩

/-- C3 (amended): the notebook functions other than the PDF-processing
helpers only pass configuration values to pre-built framework capabilities;
chunk_text (with extract_text_from_pdf and process_pdfs_from_folder)
implements an original text-chunking algorithm, computing at least two
overlapping substring chunks for any text longer than chunk_size. -/
theorem chunk_text_original_algorithm (text : List Char) (chunk_size overlap : Nat)
    (h1 : 1 ≤ chunk_size) (h2 : overlap ≤ chunk_size / 2)
    (h3 : chunk_size < text.length) :
    ∃ cks, chunk_text text chunk_size overlap = some cks ∧
      2 ≤ cks.length ∧ ChunksFrom text chunk_size overlap 0 cks := by
  obtain ⟨cks, heq, hch, hlen⟩ :=
    chunkLoop_sound text chunk_size overlap h1 h2 (text.length + 1) 0 (by omega) (by omega)
  refine ⟨cks, ?_, hlen (by omega), hch⟩
  simp only [chunk_text, if_neg (by omega : ¬ text.length ≤ chunk_size)]
  exact heq

/-- C3 amended witness: on a thirteen-character text with chunk_size 5 the
computed decomposition has at least two chunks. -/
theorem chunk_text_original_algorithm_witness :
    ∃ cks, chunk_text "ab. cd. ef. g".data 5 1 = some cks ∧
      2 ≤ cks.length ∧ ChunksFrom "ab. cd. ef. g".data 5 1 0 cks :=
  chunk_text_original_algorithm "ab. cd. ef. g".data 5 1 (by decide) (by decide) (by decide)

theorem change_state_found (i : Int) (b : Bool) (light : Light) :
    ∀ pre post, (∀ x ∈ pre, x.id ≠ i) → light.id = i →
      LightsPlugin.change_state (pre ++ light :: post) i b =
        (pre ++ { light with is_on := b } :: post, some { light with is_on := b }) := by
  intro pre
  induction pre with
  | nil =>
    intro post _ hl
    simp [LightsPlugin.change_state, hl]
  | cons x xs ih =>
    intro post hpre hl
    have hx : x.id ≠ i := hpre x (List.mem_cons_self x xs)
    have hrec := ih post (fun y hy => hpre y (List.mem_cons_of_mem x hy)) hl
    simp [LightsPlugin.change_state, hx, hrec]

/-- C5: change_state updates the is_on field of the first entry whose id
matches and returns that entry, leaving every other entry and the matched
entry's other fields unchanged; with no matching entry it returns None and
leaves the list unchanged. -/
theorem change_state_spec (lights : List Light) (i : Int) (b : Bool) :
    ((∀ light ∈ lights, light.id ≠ i) →
      LightsPlugin.change_state lights i b = (lights, none)) ∧
    (∀ pre light post, lights = pre ++ light :: post →
      (∀ x ∈ pre, x.id ≠ i) → light.id = i →
      LightsPlugin.change_state lights i b =
        (pre ++ { light with is_on := b } :: post, some { light with is_on := b })) := by
  constructor
  · induction lights with
    | nil => intro _; rfl
    | cons l rest ih =>
      intro hall
      have hl : l.id ≠ i := hall l (List.mem_cons_self l rest)
      have hrest := ih (fun x hx => hall x (List.mem_cons_of_mem l hx))
      simp [LightsPlugin.change_state, hl, hrest]
  · intro pre light post hsplit hpre hl
    subst hsplit
    exact change_state_found i b light pre post hpre hl

/-- C5 witness: on the initial lights list, changing light 1 to on updates
exactly that entry and returns it, and an unknown id 5 returns None with
the list untouched. -/
theorem change_state_spec_witness :
    LightsPlugin.change_state LightsPlugin.lights 1 true =
      ([{ id := 1, name := "Table Lamp".data, is_on := true },
        { id := 2, name := "Porch light".data, is_on := false },
        { id := 3, name := "Chandelier".data, is_on := true }],
       some { id := 1, name := "Table Lamp".data, is_on := true }) ∧
    LightsPlugin.change_state LightsPlugin.lights 5 true = (LightsPlugin.lights, none) :=
  ⟨(change_state_spec LightsPlugin.lights 1 true).2 []
      { id := 1, name := "Table Lamp".data, is_on := false }
      [{ id := 2, name := "Porch light".data, is_on := false },
       { id := 3, name := "Chandelier".data, is_on := true }]
      rfl (by simp) rfl,
   (change_state_spec LightsPlugin.lights 5 true).1 (by decide)⟩

/-- C8 counterexample: LightsPlugin.change_state mutates the class-level
lights list held by the notebook's own code: invoking it on the stored
state yields a different stored state, so a notebook function does mutate
repository-held persistent state across invocations. -/
theorem change_state_mutates_state :
    (LightsPlugin.change_state LightsPlugin.lights 1 true).1 ≠ LightsPlugin.lights := by
  decide

/-- C8 (amended): apart from LightsPlugin, no notebook function mutates
repository-held state; LightsPlugin is a small state machine over its
class-level lights list: change_state turns light 1 on and the change
persists, visible to a later get_lights invocation, while the initial state
had light 1 off. -/
theorem lightsplugin_state_persists :
    LightsPlugin.get_state (LightsPlugin.change_state LightsPlugin.lights 1 true).1 =
      [{ id := 1, name := "Table Lamp".data, is_on := true },
       { id := 2, name := "Porch light".data, is_on := false },
       { id := 3, name := "Chandelier".data, is_on := true }] ∧
    LightsPlugin.get_state LightsPlugin.lights =
      [{ id := 1, name := "Table Lamp".data, is_on := false },
       { id := 2, name := "Porch light".data, is_on := false },
       { id := 3, name := "Chandelier".data, is_on := true }] :=
  ⟨by decide, by decide⟩

/-- C7 counterexample: the QuickStart notebook defines a data model of its
own — the DocumentChunk record with vector, id, content, document_name,
page_number and chunk_index fields — whose instance built from just a key
carries the notebook's declared defaults. -/
theorem documentchunk_data_model :
    ({ id := "key".data } : DocumentChunk).vector = none ∧
    ({ id := "key".data } : DocumentChunk).content = "content".data ∧
    ({ id := "key".data } : DocumentChunk).document_name = "document".data ∧
    ({ id := "key".data } : DocumentChunk).page_number = 0 ∧
    ({ id := "key".data } : DocumentChunk).chunk_index = 0 :=
  ⟨rfl, rfl, rfl, rfl, rfl⟩

/-- C7 (amended): beyond the DocumentChunk record — the one data model the
notebooks define, populated by process_pdfs_from_folder with the chunk
text, the document stem, the page number and the chunk index, its vector
left unset until embedding — the notebooks derive no data model of their
own. -/
theorem documentchunk_fields (chunk stem : List Char) (page_num chunk_idx : Int)
    (generated_id : List Char) :
    (mkDocumentChunk chunk stem page_num chunk_idx generated_id).content = chunk ∧
    (mkDocumentChunk chunk stem page_num chunk_idx generated_id).document_name = stem ∧
    (mkDocumentChunk chunk stem page_num chunk_idx generated_id).page_number = page_num ∧
    (mkDocumentChunk chunk stem page_num chunk_idx generated_id).chunk_index = chunk_idx ∧
    (mkDocumentChunk chunk stem page_num chunk_idx generated_id).id = generated_id ∧
    (mkDocumentChunk chunk stem page_num chunk_idx generated_id).vector = none :=
  ⟨rfl, rfl, rfl, rfl, rfl, rfl⟩

/-- C6: search_documents computes no similarity score of its own: it passes
options whose top is top_k to vectorized_search, returns the returned
record and score pairs in the returned order, and returns the empty list
whenever the embedding or the search raises or the search yields no
results. -/
theorem search_documents_spec
    (generate_raw_embeddings : Except Unit (List Float))
    (vectorized_search :
      List Float → VectorSearchOptions → Except Unit (List VectorSearchResult))
    (document_filter : Option (List Char)) (top_k : Nat) :
    (buildSearchOptions document_filter top_k).top = top_k ∧
    (generate_raw_embeddings = .error () →
      search_documents generate_raw_embeddings vectorized_search document_filter top_k = []) ∧
    (∀ v, generate_raw_embeddings = .ok v →
      vectorized_search v (buildSearchOptions document_filter top_k) = .error () →
      search_documents generate_raw_embeddings vectorized_search document_filter top_k = []) ∧
    (∀ v, generate_raw_embeddings = .ok v →
      vectorized_search v (buildSearchOptions document_filter top_k) = .ok [] →
      search_documents generate_raw_embeddings vectorized_search document_filter top_k = []) ∧
    (∀ v results, generate_raw_embeddings = .ok v →
      vectorized_search v (buildSearchOptions document_filter top_k) = .ok results →
      search_documents generate_raw_embeddings vectorized_search document_filter top_k =
        results.map (fun result => (result.record, result.score))) := by
  refine ⟨?_, ?_, ?_, ?_, ?_⟩
  · cases document_filter <;> rfl
  · intro h
    simp [search_documents, h]
  · intro v hv hs
    simp [search_documents, hv, hs]
  · intro v hv hs
    simp [search_documents, hv, hs]
  · intro v results hv hs
    cases results with
    | nil => simp [search_documents, hv, hs]
    | cons r rs => simp [search_documents, hv, hs]

/-- C6 witness: a raising embedding call yields the empty list, and a
search returning one scored record yields exactly that pair. -/
theorem search_documents_spec_witness :
    search_documents (Except.error ()) (fun _ _ => Except.ok []) none 5 = [] ∧
    search_documents (Except.ok [])
      (fun _ _ => Except.ok [{ record := { id := "a".data }, score := (1 : Float) }]) none 5 =
      [(({ id := "a".data } : DocumentChunk), (1 : Float))] :=
  ⟨(search_documents_spec (Except.error ()) (fun _ _ => Except.ok []) none 5).2.1 rfl,
   by
    have h := (search_documents_spec (Except.ok [])
      (fun _ _ => Except.ok [{ record := { id := "a".data }, score := (1 : Float) }])
      none 5).2.2.2.2 [] [{ record := { id := "a".data }, score := (1 : Float) }] rfl rfl
    simpa using h⟩
